import Mathlib

/-!
Verification of the portfolio aggregation engine of the Stock_dashboard
repository.

The embedding is shallow: each TypeScript function of the calculation layer
is translated into a Lean definition over exact rationals (JavaScript
numbers are IEEE doubles; the claims under study concern the algebraic and
zero-denominator structure of the code, which is independent of rounding,
so finite numbers are modelled as `ℚ`).  The IEEE special values `NaN`,
`Infinity` and `-Infinity`, which JavaScript division can produce, are
modelled explicitly by the `JSNum` type, and the percentage functions —
the only places where the source divides by a possibly-zero denominator —
return a `JSNum`.

Two revisions of `utils/portfolio` exist in the repository: the one-argument
version (`src/utils/portfolio.ts`, namespace `P` below) and the
quantity-override-aware version (`src/unnamed/part_001`, namespace `V`
below).  The stock-table component `src/unnamed/part_004` (namespace `T`
below) consumes the override-aware version.
-/

/-- JavaScript number restricted to the values the dashboard's arithmetic
can produce: a finite value (modelled exactly as a rational) or one of the
IEEE special values. -/
inductive JSNum where
  | nan : JSNum
  | inf : JSNum
  | ninf : JSNum
  | num : ℚ → JSNum
deriving DecidableEq

/-- JavaScript division `a / b` on finite operands: division by zero yields
`NaN` when the numerator is zero and a signed infinity otherwise; any other
division is exact. -/
def jsDiv (a b : ℚ) : JSNum :=
  if b = 0 then
    if a = 0 then JSNum.nan else if a > 0 then JSNum.inf else JSNum.ninf
  else
    JSNum.num (a / b)

/-- JavaScript multiplication `x * 100`: the special values absorb the
positive finite factor, finite values multiply exactly. -/
def jsMul100 : JSNum → JSNum
  | JSNum.nan => JSNum.nan
  | JSNum.inf => JSNum.inf
  | JSNum.ninf => JSNum.ninf
  | JSNum.num x => JSNum.num (x * 100)

/-- `x` is one of the IEEE special values (`NaN`, `Infinity`, `-Infinity`). -/
def JSNum.isSpecialValue : JSNum → Prop
  | JSNum.nan => True
  | JSNum.inf => True
  | JSNum.ninf => True
  | JSNum.num _ => False

instance (x : JSNum) : Decidable x.isSpecialValue := by
  cases x <;> simp [JSNum.isSpecialValue] <;> infer_instance

/-- The `Stock` record of `src/types/stock.ts`.  Numeric fields are finite
JavaScript numbers (`ℚ`); fields typed `number | null` are `Option ℚ`. -/
structure Stock where
  id : String
  symbol : String
  name : String
  ticker : String
  sector : String
  exchange : String
  purchasePrice : ℚ
  quantity : ℚ
  purchaseDate : String
  currentPrice : ℚ
  peRatio : Option ℚ
  latestEarnings : Option ℚ
  dayHigh : Option ℚ
  dayLow : Option ℚ
  volume : Option ℚ
  marketCap : Option ℚ
  dayChange : Option ℚ
  dayChangePercent : Option ℚ
  fiftyDayAverage : Option ℚ
  twoHundredDayAverage : Option ℚ
  yearHigh : Option ℚ
  yearLow : Option ℚ
  lastUpdated : String
deriving DecidableEq

/-- The `SectorSummary` record of `src/types/stock.ts`.  The
`percentageOfPortfolio` field is produced by an unguarded division, hence a
`JSNum`. -/
structure SectorSummary where
  sector : String
  totalInvestment : ℚ
  presentValue : ℚ
  gainLoss : ℚ
  percentageOfPortfolio : JSNum
  stocks : ℕ
deriving DecidableEq

/-- The `PortfolioSummary` record of `src/types/stock.ts`.  The
`totalGainLossPercentage` field is produced by an unguarded division, hence
a `JSNum`. -/
structure PortfolioSummary where
  totalInvestment : ℚ
  totalValue : ℚ
  totalGainLoss : ℚ
  totalGainLossPercentage : JSNum
  sectorCount : ℕ
  stockCount : ℕ
deriving DecidableEq

/-- `list.reduce((sum, stock) => sum + f(stock), 0)`. -/
def sumBy (f : Stock → ℚ) (l : List Stock) : ℚ :=
  l.foldl (fun acc s => acc + f s) 0

/-- The numeric value of a decimal digit character, `none` otherwise. -/
def digitVal (c : Char) : Option ℕ :=
  if 48 ≤ c.toNat ∧ c.toNat ≤ 57 then some (c.toNat - 48) else none

/-- The numeric value of an all-digit character list, `none` when any
character is not a decimal digit. -/
def digitsVal (cs : List Char) : Option ℕ :=
  cs.foldl (fun acc c =>
    match acc, digitVal c with
    | some n, some d => some (n * 10 + d)
    | _, _ => none) (some 0)

/-- ECMAScript array-index key: the canonical decimal string (nonempty,
all digits, no leading zero except `"0"` itself) of an integer
`n < 2³² − 1`.  Such object keys enumerate ahead of all other string keys,
in ascending numeric order. -/
def isArrayIndexKey (s : String) : Bool :=
  match s.data with
  | [] => false
  | c :: cs =>
    match digitsVal (c :: cs) with
    | none => false
    | some n => decide (n < 4294967295) && !(c == '0' && !cs.isEmpty)

/-- The numeric value of an array-index key (0 on other strings, which are
never compared by it). -/
def keyNat (s : String) : ℕ :=
  (digitsVal s.data).getD 0

/-- Insertion into a key-value list sorted ascending by numeric key value. -/
def insertPairByNat {α : Type} (p : String × α) :
    List (String × α) → List (String × α)
  | [] => [p]
  | q :: m =>
    if keyNat p.1 ≤ keyNat q.1 then p :: q :: m else q :: insertPairByNat p m

/-- Insertion sort of a key-value list by ascending numeric key value. -/
def sortPairsByNat {α : Type} (l : List (String × α)) : List (String × α) :=
  l.foldr insertPairByNat []

/-- Insertion into a string list sorted ascending by numeric key value. -/
def insertStrByNat (s : String) : List String → List String
  | [] => [s]
  | k :: ks =>
    if keyNat s ≤ keyNat k then s :: k :: ks else k :: insertStrByNat s ks

/-- Insertion sort of a string list by ascending numeric key value. -/
def sortStrsByNat (l : List String) : List String :=
  l.foldr insertStrByNat []

/-- `Object.entries` enumeration order (ECMAScript ordinary own property
order) of an object whose internal slots are in key insertion order:
array-index keys first, in ascending numeric order, then the remaining
string keys in insertion order. -/
def jsEntriesOrder {α : Type} (m : List (String × α)) : List (String × α) :=
  sortPairsByNat (m.filter (fun p => isArrayIndexKey p.1))
    ++ m.filter (fun p => !isArrayIndexKey p.1)

/-- The same enumeration order on a bare key list. -/
def jsKeyOrder (ks : List String) : List String :=
  sortStrsByNat (ks.filter isArrayIndexKey)
    ++ ks.filter (fun s => !isArrayIndexKey s)

namespace P

/-- `calculateInvestment` of `src/utils/portfolio.ts`:
`stock.purchasePrice * stock.quantity`. -/
def calculateInvestment (stock : Stock) : ℚ :=
  stock.purchasePrice * stock.quantity

/-- `calculatePresentValue` of `src/utils/portfolio.ts`:
`stock.currentPrice * stock.quantity`. -/
def calculatePresentValue (stock : Stock) : ℚ :=
  stock.currentPrice * stock.quantity

/-- `calculateGainLoss` of `src/utils/portfolio.ts`:
`calculatePresentValue(stock) - calculateInvestment(stock)`. -/
def calculateGainLoss (stock : Stock) : ℚ :=
  calculatePresentValue stock - calculateInvestment stock

/-- `calculateGainLossPercentage` of `src/utils/portfolio.ts`:
`(gainLoss / investment) * 100`, with no zero-denominator guard. -/
def calculateGainLossPercentage (stock : Stock) : JSNum :=
  jsMul100 (jsDiv (calculateGainLoss stock) (calculateInvestment stock))

/-- `calculatePortfolioPercentage` of `src/utils/portfolio.ts`:
`(calculateInvestment(stock) / totalInvestment) * 100`, with no
zero-denominator guard. -/
def calculatePortfolioPercentage (stock : Stock) (totalInvestment : ℚ) : JSNum :=
  jsMul100 (jsDiv (calculateInvestment stock) totalInvestment)

/-- One grouping step of `groupStocksBySector`: `acc[stock.sector]` is
created on first sight of the sector (JavaScript objects append new string
keys in insertion order) and the stock is pushed onto its bucket. -/
def addToGroups (gs : List (String × List Stock)) (s : Stock) :
    List (String × List Stock) :=
  if s.sector ∈ gs.map Prod.fst then
    gs.map (fun g => if g.1 = s.sector then (g.1, g.2 ++ [s]) else g)
  else
    gs ++ [(s.sector, [s])]

/-- `groupStocksBySector` of `src/utils/portfolio.ts`: a `reduce` building a
record keyed by sector.  The model is the object's internal slot list, in
key insertion order; enumeration (`Object.entries`) applies the ECMAScript
ordinary own property order on top of it, see `jsEntriesOrder`. -/
def groupStocksBySector (stocks : List Stock) : List (String × List Stock) :=
  stocks.foldl addToGroups []

/-- `calculateSectorSummaries` of `src/utils/portfolio.ts`:
`Object.entries(sectorGroups).map(...)`, the entries enumerating in
ordinary own property order (array-index-like sector labels first, in
ascending numeric order, then the rest in insertion order). -/
def calculateSectorSummaries (stocks : List Stock)
    (totalPortfolioInvestment : ℚ) : List SectorSummary :=
  (jsEntriesOrder (groupStocksBySector stocks)).map (fun g =>
    { sector := g.1
      totalInvestment := sumBy calculateInvestment g.2
      presentValue := sumBy calculatePresentValue g.2
      gainLoss := sumBy calculatePresentValue g.2 - sumBy calculateInvestment g.2
      percentageOfPortfolio :=
        jsMul100 (jsDiv (sumBy calculateInvestment g.2) totalPortfolioInvestment)
      stocks := g.2.length })

/-- `calculatePortfolioSummary` of `src/utils/portfolio.ts`.  `sectorCount`
is `new Set(stocks.map(s => s.sector)).size`, the number of distinct sector
labels. -/
def calculatePortfolioSummary (stocks : List Stock) : PortfolioSummary :=
  { totalInvestment := sumBy calculateInvestment stocks
    totalValue := sumBy calculatePresentValue stocks
    totalGainLoss := sumBy calculatePresentValue stocks - sumBy calculateInvestment stocks
    totalGainLossPercentage :=
      jsMul100 (jsDiv (sumBy calculatePresentValue stocks - sumBy calculateInvestment stocks)
        (sumBy calculateInvestment stocks))
    sectorCount := ((stocks.map Stock.sector).dedup).length
    stockCount := stocks.length }

end P

namespace V

/-- `calculateInvestment` of `src/unnamed/part_001`:
`stock.purchasePrice * (quantity ?? stock.quantity)`. -/
def calculateInvestment (stock : Stock) (quantity : Option ℚ) : ℚ :=
  stock.purchasePrice * quantity.getD stock.quantity

/-- `calculatePresentValue` of `src/unnamed/part_001`:
`stock.currentPrice * (quantity ?? stock.quantity)`. -/
def calculatePresentValue (stock : Stock) (quantity : Option ℚ) : ℚ :=
  stock.currentPrice * quantity.getD stock.quantity

/-- `calculateGainLoss` of `src/unnamed/part_001`: computed independently
as `(stock.currentPrice - stock.purchasePrice) * (quantity ?? stock.quantity)`. -/
def calculateGainLoss (stock : Stock) (quantity : Option ℚ) : ℚ :=
  (stock.currentPrice - stock.purchasePrice) * quantity.getD stock.quantity

/-- The `Stock` branch of `calculateGainLossPercentage` of
`src/unnamed/part_001` (taken when `'purchasePrice' in item`):
`(gainLoss / investment) * 100`, with no zero-denominator guard. -/
def calculateGainLossPercentageStock (stock : Stock) (quantity : Option ℚ) : JSNum :=
  jsMul100 (jsDiv (calculateGainLoss stock quantity) (calculateInvestment stock quantity))

/-- The `SectorSummary` branch of `calculateGainLossPercentage` of
`src/unnamed/part_001`: `(item.gainLoss / item.totalInvestment) * 100`,
with no zero-denominator guard. -/
def calculateGainLossPercentageSector (item : SectorSummary) : JSNum :=
  jsMul100 (jsDiv item.gainLoss item.totalInvestment)

/-- `calculatePortfolioPercentage` of `src/unnamed/part_001`:
`(investment / totalInvestment) * 100`, with no zero-denominator guard. -/
def calculatePortfolioPercentage (stock : Stock) (totalInvestment : ℚ)
    (quantity : Option ℚ) : JSNum :=
  jsMul100 (jsDiv (calculateInvestment stock quantity) totalInvestment)

end V

/-- Lookup `m[k]` on a JavaScript object modelled as an ordered association
list: `none` when the key is absent (JavaScript `undefined`). -/
def lookupKey {α : Type} : List (String × α) → String → Option α
  | [], _ => none
  | p :: m, k => if p.1 = k then some p.2 else lookupKey m k

/-- The spread update `{ ...prev, [k]: v }` on a JavaScript object: an
existing key keeps its insertion position and gets the new value, a new key
is appended at the end. -/
def setKey {α : Type} : List (String × α) → String → α → List (String × α)
  | [], k, v => [(k, v)]
  | p :: m, k, v => if p.1 = k then (k, v) :: m else p :: setKey m k v

namespace T

/-- The `Stock` branch of `getCurrentQuantity` of `src/unnamed/part_004`:
`editableQuantities[item.id] || item.quantity` — the stored quantity is
used when the overlay has no entry (`undefined` is falsy) and also when the
overlay entry is `0` (zero is falsy).  (The `SectorSummary` branch,
`item.quantity || 0`, always yields `0` since `SectorSummary` has no
`quantity` field.) -/
def getCurrentQuantity (editableQuantities : List (String × ℚ)) (item : Stock) : ℚ :=
  match lookupKey editableQuantities item.id with
  | none => item.quantity
  | some q => if q = 0 then item.quantity else q

/-- `handleQuantityChange` of `src/unnamed/part_004`: stores `newQuantity`
into the pending-edit overlay, with no validation of any kind. -/
def handleQuantityChange (editableQuantities : List (String × ℚ))
    (stockId : String) (newQuantity : ℚ) : List (String × ℚ) :=
  setKey editableQuantities stockId newQuantity

/-- The sanitisation applied by the quantity input's `onChange` in
`src/unnamed/part_004`: `Math.max(0, parseInt(e.target.value) || 0)`.
The `parseInt` result is modelled as `Option ℤ` (`none` for `NaN` on
non-numeric text); `|| 0` maps `NaN` (and an explicit `0`, which is falsy)
to `0`, and `Math.max` clamps negatives to `0`. -/
def sanitizeQuantityInput (parsed : Option ℤ) : ℤ :=
  max 0 (parsed.getD 0)

/-- The quantity input's `onChange` handler of `src/unnamed/part_004`:
`handleQuantityChange(stock.id, Math.max(0, parseInt(e.target.value) || 0))`. -/
def quantityInputChange (editableQuantities : List (String × ℚ))
    (stockId : String) (parsed : Option ℤ) : List (String × ℚ) :=
  handleQuantityChange editableQuantities stockId ((sanitizeQuantityInput parsed : ℤ) : ℚ)

/-- `saveQuantityChange` of `src/unnamed/part_004`, acting on the relevant
component state (the holdings prop, the pending-edit overlay, and the
per-row editing flags).  The source computes
`const newQuantity = editableQuantities[stock.id] || stock.quantity;` and
never uses it; the body only clears the editing flag for the row and calls
`onRefresh()` (which re-fetches the server-side holdings).  The holdings
and the overlay are returned unchanged, exactly as in the source. -/
def saveQuantityChange (stocks : List Stock)
    (editableQuantities : List (String × ℚ)) (isEditing : List (String × Bool))
    (stock : Stock) :
    List Stock × List (String × ℚ) × List (String × Bool) :=
  (stocks, editableQuantities, setKey isEditing stock.id false)

/-- The `investment` column accessor of `src/unnamed/part_004`:
`calculateInvestment(row, getCurrentQuantity(row))`. -/
def investmentAccessor (editableQuantities : List (String × ℚ)) (row : Stock) : ℚ :=
  V.calculateInvestment row (some (getCurrentQuantity editableQuantities row))

/-- The `presentValue` column accessor of `src/unnamed/part_004`:
`calculatePresentValue(row, getCurrentQuantity(row))`. -/
def presentValueAccessor (editableQuantities : List (String × ℚ)) (row : Stock) : ℚ :=
  V.calculatePresentValue row (some (getCurrentQuantity editableQuantities row))

/-- The `gainLoss` column accessor of `src/unnamed/part_004`:
`calculateGainLoss(row, getCurrentQuantity(row))`. -/
def gainLossAccessor (editableQuantities : List (String × ℚ)) (row : Stock) : ℚ :=
  V.calculateGainLoss row (some (getCurrentQuantity editableQuantities row))

end T

namespace Route

/-- One row of the static `portfolioData` array of
`src/app/api/stocks/route.ts`. -/
structure PortfolioEntry where
  id : String
  symbol : String
  name : String
  ticker : String
  sector : String
  exchange : String
  purchasePrice : ℚ
  quantity : ℚ
  purchaseDate : String
deriving DecidableEq

/-- The fields of a Yahoo Finance quote that
`src/app/api/stocks/route.ts` reads; every one may be absent. -/
structure QuoteData where
  regularMarketPrice : Option ℚ
  exchange : Option String
  regularMarketDayHigh : Option ℚ
  regularMarketDayLow : Option ℚ
  regularMarketVolume : Option ℚ
  marketCap : Option ℚ
  regularMarketChange : Option ℚ
  regularMarketChangePercent : Option ℚ
  fiftyDayAverage : Option ℚ
  twoHundredDayAverage : Option ℚ
  fiftyTwoWeekHigh : Option ℚ
  fiftyTwoWeekLow : Option ℚ
deriving DecidableEq

/-- The fields of the Yahoo Finance `quoteSummary` modules that
`src/app/api/stocks/route.ts` reads; every one may be absent. -/
structure FinancialsData where
  forwardPE : Option ℚ
  trailingPE : Option ℚ
  totalRevenue : Option ℚ
  sharesOutstanding : Option ℚ
  trailingEps : Option ℚ
deriving DecidableEq

/-- One element of the JSON array the route returns.  Fields the fallback
branch leaves out of the object entirely (JavaScript `undefined`) and
fields set to `null` both serialise to an absent value and are modelled as
`none`. -/
structure RouteStock where
  id : String
  symbol : String
  name : String
  ticker : String
  sector : String
  exchange : String
  purchasePrice : ℚ
  quantity : ℚ
  purchaseDate : String
  currentPrice : ℚ
  peRatio : Option ℚ
  latestEarnings : Option ℚ
  dayHigh : Option ℚ
  dayLow : Option ℚ
  volume : Option ℚ
  marketCap : Option ℚ
  dayChange : Option ℚ
  dayChangePercent : Option ℚ
  fiftyDayAverage : Option ℚ
  twoHundredDayAverage : Option ℚ
  yearHigh : Option ℚ
  yearLow : Option ℚ
  lastUpdated : Option String
deriving DecidableEq

/-- JavaScript `v || d` for `v : number | undefined`: `undefined` and the
falsy value `0` fall through to the default. -/
def orFalsy (v : Option ℚ) (d : ℚ) : ℚ :=
  match v with
  | none => d
  | some x => if x = 0 then d else x

/-- JavaScript `v || null` for `v : number | undefined`: `undefined` and
the falsy value `0` both become `null`. -/
def orNull (v : Option ℚ) : Option ℚ :=
  match v with
  | none => none
  | some x => if x = 0 then none else some x

/-- JavaScript `v || d` for `v : string | undefined`: `undefined` and the
falsy empty string fall through to the default. -/
def orFalsyStr (v : Option String) (d : String) : String :=
  match v with
  | none => d
  | some x => if x = "" then d else x

/-- The `peRatio` expression of the route:
`financials.defaultKeyStatistics?.forwardPE || financials.summaryDetail?.trailingPE || null`. -/
def peRatioOf (f : FinancialsData) : Option ℚ :=
  match orNull f.forwardPE with
  | some x => some x
  | none => orNull f.trailingPE

/-- The `latestEarnings` expression of the route:
`financials.financialData?.totalRevenue ? totalRevenue / (sharesOutstanding || 1) : (trailingEps || null)`. -/
def latestEarningsOf (f : FinancialsData) : Option ℚ :=
  match orNull f.totalRevenue with
  | some rev => some (rev / orFalsy f.sharesOutstanding 1)
  | none => orNull f.trailingEps

/-- The success branch of the per-stock mapper in the route's `GET`: the
quote and financials resolved, and the result object is assembled with
`||`-fallbacks on every market-data field.  `now` stands for
`new Date().toISOString()`. -/
def processSuccess (now : String) (e : PortfolioEntry) (q : QuoteData)
    (f : FinancialsData) : RouteStock :=
  { id := e.id
    symbol := e.symbol
    name := e.name
    ticker := e.ticker
    sector := e.sector
    exchange := orFalsyStr q.exchange e.exchange
    purchasePrice := e.purchasePrice
    quantity := e.quantity
    purchaseDate := e.purchaseDate
    currentPrice := orFalsy q.regularMarketPrice e.purchasePrice
    peRatio := peRatioOf f
    latestEarnings := latestEarningsOf f
    dayHigh := orNull q.regularMarketDayHigh
    dayLow := orNull q.regularMarketDayLow
    volume := orNull q.regularMarketVolume
    marketCap := orNull q.marketCap
    dayChange := orNull q.regularMarketChange
    dayChangePercent := orNull q.regularMarketChangePercent
    fiftyDayAverage := orNull q.fiftyDayAverage
    twoHundredDayAverage := orNull q.twoHundredDayAverage
    yearHigh := orNull q.fiftyTwoWeekHigh
    yearLow := orNull q.fiftyTwoWeekLow
    lastUpdated := some now }

/-- The catch branch of the per-stock mapper in the route's `GET`:
`{ ...stock, currentPrice: stock.purchasePrice, peRatio: null, ... }` —
the spread keeps the static entry's fields, `currentPrice` falls back to
the purchase price, and the listed market-data fields are `null`; the
fields the fallback object does not mention (`dayChange`,
`dayChangePercent`, moving averages, 52-week range, `lastUpdated`) are
simply absent. -/
def processFallback (e : PortfolioEntry) : RouteStock :=
  { id := e.id
    symbol := e.symbol
    name := e.name
    ticker := e.ticker
    sector := e.sector
    exchange := e.exchange
    purchasePrice := e.purchasePrice
    quantity := e.quantity
    purchaseDate := e.purchaseDate
    currentPrice := e.purchasePrice
    peRatio := none
    latestEarnings := none
    dayHigh := none
    dayLow := none
    volume := none
    marketCap := none
    dayChange := none
    dayChangePercent := none
    fiftyDayAverage := none
    twoHundredDayAverage := none
    yearHigh := none
    yearLow := none
    lastUpdated := none }

/-- The per-stock mapper of the route's `GET`: the inner `try`/`catch`
makes it total — a failed fetch (`none` outcome) yields the fallback
object, never an exception. -/
def processStock (now : String) (e : PortfolioEntry)
    (outcome : Option (QuoteData × FinancialsData)) : RouteStock :=
  match outcome with
  | some (q, f) => processSuccess now e q f
  | none => processFallback e

/-- The body of the route's `GET`: one quote request per entry, mapped in
parallel; `outcomes` gives each symbol's fetch result (`none` = the fetch
threw).  The outer `try`/`catch` can only return the 500 error if
something outside the per-stock mappers throws, which nothing in the body
does, so the result is always `Except.ok`. -/
def routeGET (now : String) (outcomes : String → Option (QuoteData × FinancialsData))
    (portfolioData : List PortfolioEntry) : Except String (List RouteStock) :=
  Except.ok (portfolioData.map (fun e => processStock now e (outcomes e.symbol)))

end Route

/-- The AAPL holding of the route's `portfolioData`, as delivered to the
dashboard with a current price of 180 (the spec's scenario data). -/
def aaplStock : Stock :=
  { id := "1"
    symbol := "AAPL"
    name := "Apple Inc."
    ticker := "AAPL"
    sector := "Technology"
    exchange := "NASDAQ"
    purchasePrice := 150
    quantity := 10
    purchaseDate := "2023-01-01"
    currentPrice := 180
    peRatio := none
    latestEarnings := none
    dayHigh := none
    dayLow := none
    volume := none
    marketCap := none
    dayChange := none
    dayChangePercent := none
    fiftyDayAverage := none
    twoHundredDayAverage := none
    yearHigh := none
    yearLow := none
    lastUpdated := "2023-01-01T00:00:00.000Z" }

/-- The TSLA holding of the spec's scenario data. -/
def tslaStock : Stock :=
  { aaplStock with
    id := "5"
    symbol := "TSLA"
    name := "Tesla, Inc."
    ticker := "TSLA"
    sector := "Automotive"
    purchasePrice := 900
    quantity := 5
    currentPrice := 850 }

/-- The AAPL holding with its position fully sold (quantity 0), making its
investment 0. -/
def aaplQZero : Stock :=
  { aaplStock with quantity := 0 }

/-- A holding whose free-text sector label is the array-index-like string
`"5"`, which JavaScript objects enumerate ahead of ordinary string keys. -/
def numericSectorStock : Stock :=
  { aaplStock with
    id := "9"
    symbol := "NUM"
    name := "Numeric Sector Co."
    ticker := "NUM"
    sector := "5" }

/-- A sector summary whose total investment is 0. -/
def sectorZero : SectorSummary :=
  { sector := "Technology"
    totalInvestment := 0
    presentValue := 0
    gainLoss := 0
    percentageOfPortfolio := JSNum.num 0
    stocks := 0 }

/-- The AAPL row of the route's static `portfolioData`. -/
def appleEntry : Route.PortfolioEntry :=
  { id := "1"
    symbol := "AAPL"
    name := "Apple Inc."
    ticker := "AAPL"
    sector := "Technology"
    exchange := "NASDAQ"
    purchasePrice := 150
    quantity := 10
    purchaseDate := "2023-01-01" }

/-- A quote whose reported values are all the falsy number 0. -/
def quoteAllZero : Route.QuoteData :=
  { regularMarketPrice := some 0
    exchange := some "NASDAQ"
    regularMarketDayHigh := some 0
    regularMarketDayLow := some 0
    regularMarketVolume := some 0
    marketCap := some 0
    regularMarketChange := some 0
    regularMarketChangePercent := some 0
    fiftyDayAverage := some 0
    twoHundredDayAverage := some 0
    fiftyTwoWeekHigh := some 0
    fiftyTwoWeekLow := some 0 }

/-- A financials response with every module missing. -/
def financialsNone : Route.FinancialsData :=
  { forwardPE := none
    trailingPE := none
    totalRevenue := none
    sharesOutstanding := none
    trailingEps := none }

/-- Insert a key into a key list if it is not already present (the key set
of a JavaScript object after one more property write, in insertion order). -/
def insKey (ks : List String) (a : String) : List String :=
  if a ∈ ks then ks else ks ++ [a]

/-- The distinct elements of a list in first-occurrence order — the
specification-side description of a JavaScript object's key enumeration
order after inserting every list element in turn. -/
def firstOccurrenceKeys (l : List String) : List String :=
  l.foldl insKey []

/-- The sum of `sumBy f` over the buckets of a sector grouping. -/
def groupsSum (f : Stock → ℚ) (gs : List (String × List Stock)) : ℚ :=
  (gs.map (fun g => sumBy f g.2)).sum

/-! ## Theorems -/

/-- Dividing by a zero denominator and scaling by 100 always produces one of
the IEEE special values, never a finite number. -/
theorem isSpecialValue_jsMul100_jsDiv_zero (a : ℚ) :
    (jsMul100 (jsDiv a 0)).isSpecialValue := by
  unfold jsDiv
  rw [if_pos rfl]
  by_cases h : a = 0
  · simp [h, jsMul100, JSNum.isSpecialValue]
  · by_cases h2 : a > 0 <;> simp [h, h2, jsMul100, JSNum.isSpecialValue]

/-- C1 counterexample: on a holding with purchase price 150 and effective
quantity 0 the investment is 0 and `calculateGainLossPercentage`
(`src/utils/portfolio.ts`) returns `NaN`, not 0 — the claimed zero-division
policy is absent from the code. -/
theorem calculateGainLossPercentage_nan_at_zero_investment :
    P.calculateInvestment aaplQZero = 0 ∧
    P.calculateGainLossPercentage aaplQZero = JSNum.nan ∧
    JSNum.nan ≠ JSNum.num 0 := by
  refine ⟨?_, ?_, by simp⟩
  · simp [P.calculateInvestment, aaplQZero, aaplStock]
  · simp [P.calculateGainLossPercentage, P.calculateGainLoss, P.calculatePresentValue,
      P.calculateInvestment, aaplQZero, aaplStock, jsDiv, jsMul100]

/-- C1 amended: when the investment (respectively the total investment) in
the denominator is 0, every percentage function of both revisions of
`utils/portfolio` propagates an IEEE special value (`NaN` when the
numerator is also 0, `±Infinity` otherwise) and never returns the finite
value 0. -/
theorem percentages_not_finite_on_zero_denominator (s : Stock) (t : ℚ)
    (q : Option ℚ) (item : SectorSummary)
    (h1 : P.calculateInvestment s = 0) (h2 : t = 0)
    (h3 : V.calculateInvestment s q = 0) (h4 : item.totalInvestment = 0) :
    (P.calculateGainLossPercentage s).isSpecialValue ∧
    (P.calculatePortfolioPercentage s t).isSpecialValue ∧
    (V.calculateGainLossPercentageStock s q).isSpecialValue ∧
    (V.calculateGainLossPercentageSector item).isSpecialValue ∧
    (V.calculatePortfolioPercentage s t q).isSpecialValue := by
  refine ⟨?_, ?_, ?_, ?_, ?_⟩
  · unfold P.calculateGainLossPercentage
    rw [h1]
    exact isSpecialValue_jsMul100_jsDiv_zero _
  · unfold P.calculatePortfolioPercentage
    rw [h2]
    exact isSpecialValue_jsMul100_jsDiv_zero _
  · unfold V.calculateGainLossPercentageStock
    rw [h3]
    exact isSpecialValue_jsMul100_jsDiv_zero _
  · unfold V.calculateGainLossPercentageSector
    rw [h4]
    exact isSpecialValue_jsMul100_jsDiv_zero _
  · unfold V.calculatePortfolioPercentage
    rw [h2]
    exact isSpecialValue_jsMul100_jsDiv_zero _

/-- Witness for the amended C1 at the concrete sold-out AAPL holding and a
zero-investment sector row. -/
theorem percentages_not_finite_witness :
    (P.calculateGainLossPercentage aaplQZero).isSpecialValue ∧
    (P.calculatePortfolioPercentage aaplQZero 0).isSpecialValue ∧
    (V.calculateGainLossPercentageStock aaplQZero (some 0)).isSpecialValue ∧
    (V.calculateGainLossPercentageSector sectorZero).isSpecialValue ∧
    (V.calculatePortfolioPercentage aaplQZero 0 (some 0)).isSpecialValue :=
  percentages_not_finite_on_zero_denominator aaplQZero 0 (some 0) sectorZero
    (by simp [P.calculateInvestment, aaplQZero, aaplStock]) rfl
    (by simp [V.calculateInvestment]) rfl

/-- C2: in both revisions of `utils/portfolio`, and for every effective
quantity passed uniformly to the three functions, gain/loss equals present
value minus investment exactly — including the override-aware revision that
computes gain/loss independently as `(currentPrice − purchasePrice) × quantity`. -/
theorem gainLoss_eq_presentValue_sub_investment (s : Stock) (q : Option ℚ) :
    P.calculateGainLoss s = P.calculatePresentValue s - P.calculateInvestment s ∧
    V.calculateGainLoss s q = V.calculatePresentValue s q - V.calculateInvestment s q := by
  constructor
  · rfl
  · unfold V.calculateGainLoss V.calculatePresentValue V.calculateInvestment
    ring

/-- C8: `calculatePortfolioSummary` reports `stockCount` as the number of
holdings (zero-quantity positions included) and `sectorCount` as the number
of distinct sector labels. -/
theorem calculatePortfolioSummary_counts (stocks : List Stock) :
    (P.calculatePortfolioSummary stocks).stockCount = stocks.length ∧
    (P.calculatePortfolioSummary stocks).sectorCount
      = (stocks.map Stock.sector).toFinset.card := by
  refine ⟨rfl, ?_⟩
  show (stocks.map Stock.sector).dedup.length = _
  rw [List.card_toFinset]

/-- A left fold accumulating `+ f s` from an arbitrary start equals the
start plus the mapped sum. -/
theorem foldl_add_eq_add_sum (f : Stock → ℚ) (l : List Stock) :
    ∀ a : ℚ, l.foldl (fun acc s => acc + f s) a = a + (l.map f).sum := by
  induction l with
  | nil => intro a; simp
  | cons s l ih =>
    intro a
    simp only [List.foldl_cons, List.map_cons, List.sum_cons]
    rw [ih]
    ring

/-- `sumBy` is the sum of the mapped list. -/
theorem sumBy_eq_map_sum (f : Stock → ℚ) (l : List Stock) :
    sumBy f l = (l.map f).sum := by
  unfold sumBy
  rw [foldl_add_eq_add_sum]
  ring

/-- `sumBy` distributes over append. -/
theorem sumBy_append (f : Stock → ℚ) (l₁ l₂ : List Stock) :
    sumBy f (l₁ ++ l₂) = sumBy f l₁ + sumBy f l₂ := by
  simp [sumBy_eq_map_sum]

/-- Pushing a stock into its sector's bucket leaves every bucket key in
place. -/
theorem map_fst_modify (gs : List (String × List Stock)) (s : Stock) :
    (gs.map (fun g => if g.1 = s.sector then (g.1, g.2 ++ [s]) else g)).map Prod.fst
      = gs.map Prod.fst := by
  induction gs with
  | nil => rfl
  | cons g gs ih =>
    by_cases h : g.1 = s.sector <;> simp [h, ih]

/-- If no bucket is keyed by the stock's sector, the push is the identity. -/
theorem modify_eq_self_of_not_mem (gs : List (String × List Stock)) (s : Stock)
    (h : s.sector ∉ gs.map Prod.fst) :
    gs.map (fun g => if g.1 = s.sector then (g.1, g.2 ++ [s]) else g) = gs := by
  induction gs with
  | nil => rfl
  | cons g gs ih =>
    simp only [List.map_cons, List.mem_cons, not_or] at h
    simp only [List.map_cons]
    rw [if_neg (fun hh => h.1 hh.symm), ih h.2]

/-- One grouping step adds exactly the stock's own sector key (when new)
to the bucket keys. -/
theorem map_fst_addToGroups (gs : List (String × List Stock)) (s : Stock) :
    (P.addToGroups gs s).map Prod.fst = insKey (gs.map Prod.fst) s.sector := by
  unfold P.addToGroups insKey
  by_cases h : s.sector ∈ gs.map Prod.fst
  · rw [if_pos h, if_pos h, map_fst_modify]
  · rw [if_neg h, if_neg h]
    simp

/-- The bucket keys of a grouping fold are the insertion-order fold of the
sector labels. -/
theorem map_fst_foldl_addToGroups (l : List Stock) :
    ∀ gs : List (String × List Stock),
      (l.foldl P.addToGroups gs).map Prod.fst
        = (l.map Stock.sector).foldl insKey (gs.map Prod.fst) := by
  induction l with
  | nil => intro gs; rfl
  | cons s l ih =>
    intro gs
    simp only [List.foldl_cons, List.map_cons]
    rw [ih, map_fst_addToGroups]

/-- `insKey` preserves distinctness of keys. -/
theorem nodup_insKey (ks : List String) (a : String) (h : ks.Nodup) :
    (insKey ks a).Nodup := by
  unfold insKey
  by_cases hm : a ∈ ks
  · simpa [hm]
  · simp [hm, List.nodup_append, h]

/-- Folding `insKey` preserves distinctness of keys. -/
theorem nodup_foldl_insKey (l : List String) :
    ∀ ks : List String, ks.Nodup → (l.foldl insKey ks).Nodup := by
  induction l with
  | nil => intro ks h; simpa
  | cons a l ih =>
    intro ks h
    simp only [List.foldl_cons]
    exact ih _ (nodup_insKey ks a h)

/-- Folding `insKey` collects exactly the union of the starting keys and
the folded elements. -/
theorem toFinset_foldl_insKey (l : List String) :
    ∀ ks : List String, (l.foldl insKey ks).toFinset = ks.toFinset ∪ l.toFinset := by
  induction l with
  | nil => intro ks; simp
  | cons a l ih =>
    intro ks
    simp only [List.foldl_cons]
    rw [ih]
    have hins : (insKey ks a).toFinset = insert a ks.toFinset := by
      unfold insKey
      by_cases hm : a ∈ ks
      · rw [if_pos hm]
        exact (Finset.insert_eq_self.mpr (List.mem_toFinset.mpr hm)).symm
      · rw [if_neg hm]
        ext x
        simp [or_comm]
    rw [hins]
    ext x
    simp [or_assoc]

/-- Pushing a stock into its sector's bucket (which exists and is unique)
adds `f s` to the total over all buckets. -/
theorem groupsSum_modify (f : Stock → ℚ) (s : Stock) :
    ∀ gs : List (String × List Stock), (gs.map Prod.fst).Nodup →
      s.sector ∈ gs.map Prod.fst →
      groupsSum f (gs.map (fun g => if g.1 = s.sector then (g.1, g.2 ++ [s]) else g))
        = groupsSum f gs + f s := by
  intro gs
  induction gs with
  | nil => intro _ hmem; simp at hmem
  | cons g gs ih =>
    intro hnd hmem
    simp only [List.map_cons, List.nodup_cons] at hnd
    obtain ⟨hg, hnd'⟩ := hnd
    by_cases h : g.1 = s.sector
    · have htail : gs.map (fun g2 => if g2.1 = s.sector then (g2.1, g2.2 ++ [s]) else g2) = gs :=
        modify_eq_self_of_not_mem gs s (h ▸ hg)
      simp only [List.map_cons, if_pos h, htail]
      simp only [groupsSum, List.map_cons, List.sum_cons]
      rw [sumBy_append]
      have hone : sumBy f [s] = f s := by simp [sumBy]
      rw [hone]
      ring
    · have hmem' : s.sector ∈ gs.map Prod.fst := by
        rcases List.mem_cons.mp hmem with h1 | h2
        · exact absurd h1.symm h
        · exact h2
      simp only [List.map_cons, if_neg h]
      simp only [groupsSum, List.map_cons, List.sum_cons]
      have := ih hnd' hmem'
      simp only [groupsSum] at this
      rw [this]
      ring

/-- One grouping step adds `f s` to the total over all buckets. -/
theorem groupsSum_addToGroups (f : Stock → ℚ) (gs : List (String × List Stock))
    (s : Stock) (hnd : (gs.map Prod.fst).Nodup) :
    groupsSum f (P.addToGroups gs s) = groupsSum f gs + f s := by
  unfold P.addToGroups
  by_cases h : s.sector ∈ gs.map Prod.fst
  · rw [if_pos h]
    exact groupsSum_modify f s gs hnd h
  · rw [if_neg h]
    simp only [groupsSum, List.map_append, List.sum_append]
    have hone : sumBy f [s] = f s := by simp [sumBy]
    simp [hone]

/-- The grouping fold preserves totals: summing `f` over every bucket of
the grouped result equals the starting total plus the sum over the input. -/
theorem groupsSum_foldl (f : Stock → ℚ) (l : List Stock) :
    ∀ gs : List (String × List Stock), (gs.map Prod.fst).Nodup →
      groupsSum f (l.foldl P.addToGroups gs) = groupsSum f gs + (l.map f).sum := by
  induction l with
  | nil => intro gs _; simp
  | cons s l ih =>
    intro gs hnd
    simp only [List.foldl_cons, List.map_cons, List.sum_cons]
    have hnd' : ((P.addToGroups gs s).map Prod.fst).Nodup := by
      rw [map_fst_addToGroups]
      exact nodup_insKey _ _ hnd
    rw [ih _ hnd', groupsSum_addToGroups f gs s hnd]
    ring

/-- Filtering on the key commutes with projecting the keys. -/
theorem map_fst_filter_key {α : Type} (q : String → Bool) (m : List (String × α)) :
    (m.filter (fun p => q p.1)).map Prod.fst = (m.map Prod.fst).filter q := by
  induction m with
  | nil => rfl
  | cons p m ih =>
    by_cases h : q p.1 <;> simp [List.filter_cons, h, ih]

/-- Sorted insertion of a key-value pair projects to sorted insertion of
its key. -/
theorem map_fst_insertPairByNat {α : Type} (p : String × α)
    (m : List (String × α)) :
    (insertPairByNat p m).map Prod.fst = insertStrByNat p.1 (m.map Prod.fst) := by
  induction m with
  | nil => rfl
  | cons q m ih =>
    by_cases h : keyNat p.1 ≤ keyNat q.1 <;>
      simp [insertPairByNat, insertStrByNat, h, ih]

/-- Sorting a key-value list projects to sorting its key list. -/
theorem map_fst_sortPairsByNat {α : Type} (m : List (String × α)) :
    (sortPairsByNat m).map Prod.fst = sortStrsByNat (m.map Prod.fst) := by
  induction m with
  | nil => rfl
  | cons p m ih =>
    show (insertPairByNat p (sortPairsByNat m)).map Prod.fst
      = insertStrByNat p.1 (sortStrsByNat (m.map Prod.fst))
    rw [map_fst_insertPairByNat, ih]

/-- `Object.entries` enumeration of a key-value list projects to the same
enumeration order of its key list. -/
theorem map_fst_jsEntriesOrder {α : Type} (m : List (String × α)) :
    (jsEntriesOrder m).map Prod.fst = jsKeyOrder (m.map Prod.fst) := by
  unfold jsEntriesOrder jsKeyOrder
  rw [List.map_append, map_fst_sortPairsByNat,
    map_fst_filter_key (fun s => isArrayIndexKey s),
    map_fst_filter_key (fun s => !isArrayIndexKey s)]

/-- Sorted insertion of a key-value pair is a permutation of consing it. -/
theorem insertPairByNat_perm {α : Type} (p : String × α)
    (m : List (String × α)) : List.Perm (insertPairByNat p m) (p :: m) := by
  induction m with
  | nil => exact List.Perm.refl _
  | cons q m ih =>
    by_cases h : keyNat p.1 ≤ keyNat q.1
    · simp [insertPairByNat, h]
    · have h1 : insertPairByNat p (q :: m) = q :: insertPairByNat p m := by
        simp [insertPairByNat, h]
      rw [h1]
      exact (ih.cons q).trans (List.Perm.swap p q m)

/-- Sorting a key-value list permutes it. -/
theorem sortPairsByNat_perm {α : Type} (m : List (String × α)) :
    List.Perm (sortPairsByNat m) m := by
  induction m with
  | nil => exact List.Perm.refl _
  | cons p m ih =>
    show List.Perm (insertPairByNat p (sortPairsByNat m)) (p :: m)
    exact (insertPairByNat_perm p _).trans (ih.cons p)

/-- `Object.entries` enumeration permutes the key-value list. -/
theorem jsEntriesOrder_perm {α : Type} (m : List (String × α)) :
    List.Perm (jsEntriesOrder m) m := by
  unfold jsEntriesOrder
  exact ((sortPairsByNat_perm _).append_right _).trans
    (List.filter_append_perm _ m)

/-- Sorted insertion of a key is a permutation of consing it. -/
theorem insertStrByNat_perm (s : String) (ks : List String) :
    List.Perm (insertStrByNat s ks) (s :: ks) := by
  induction ks with
  | nil => exact List.Perm.refl _
  | cons k ks ih =>
    by_cases h : keyNat s ≤ keyNat k
    · simp [insertStrByNat, h]
    · have h1 : insertStrByNat s (k :: ks) = k :: insertStrByNat s ks := by
        simp [insertStrByNat, h]
      rw [h1]
      exact (ih.cons k).trans (List.Perm.swap s k ks)

/-- Sorting a key list permutes it. -/
theorem sortStrsByNat_perm (ks : List String) :
    List.Perm (sortStrsByNat ks) ks := by
  induction ks with
  | nil => exact List.Perm.refl _
  | cons k ks ih =>
    show List.Perm (insertStrByNat k (sortStrsByNat ks)) (k :: ks)
    exact (insertStrByNat_perm k _).trans (ih.cons k)

/-- `Object.entries` enumeration permutes the key list. -/
theorem jsKeyOrder_perm (ks : List String) :
    List.Perm (jsKeyOrder ks) ks := by
  unfold jsKeyOrder
  exact ((sortStrsByNat_perm _).append_right _).trans
    (List.filter_append_perm _ ks)

/-- C3: for every holding collection (and whatever portfolio total is passed
in for the percentage column), the sum of `totalInvestment` over the rows
of `calculateSectorSummaries` equals the `totalInvestment` of
`calculatePortfolioSummary` — exactly, under the exact-rational embedding. -/
theorem sector_totalInvestment_sums_to_portfolio (stocks : List Stock) (t : ℚ) :
    ((P.calculateSectorSummaries stocks t).map SectorSummary.totalInvestment).sum
      = (P.calculatePortfolioSummary stocks).totalInvestment := by
  have h0 : (P.calculateSectorSummaries stocks t).map SectorSummary.totalInvestment
      = (jsEntriesOrder (P.groupStocksBySector stocks)).map
          (fun g => sumBy P.calculateInvestment g.2) := by
    simp only [P.calculateSectorSummaries, List.map_map]
    rfl
  have h1 : ((P.calculateSectorSummaries stocks t).map SectorSummary.totalInvestment).sum
      = groupsSum P.calculateInvestment (P.groupStocksBySector stocks) := by
    rw [h0]
    exact ((jsEntriesOrder_perm (P.groupStocksBySector stocks)).map
      (fun g => sumBy P.calculateInvestment g.2)).sum_eq
  rw [h1]
  unfold P.groupStocksBySector
  rw [groupsSum_foldl P.calculateInvestment stocks [] (by simp)]
  show groupsSum P.calculateInvestment [] + _ = sumBy P.calculateInvestment stocks
  rw [sumBy_eq_map_sum]
  simp [groupsSum]

/-- C9 counterexample: with the holdings [AAPL (sector "Technology"),
Numeric Sector Co. (sector "5")], first-occurrence order of the sector
labels is ["Technology", "5"], but the program's `Object.entries`
enumeration promotes the array-index-like key "5" to the front, so
`calculateSectorSummaries` returns its rows in the order
["5", "Technology"] — not first-occurrence order. -/
theorem numeric_sector_label_breaks_first_occurrence_order :
    ([aaplStock, numericSectorStock].map Stock.sector) = ["Technology", "5"] ∧
    firstOccurrenceKeys ["Technology", "5"] = ["Technology", "5"] ∧
    ((P.calculateSectorSummaries [aaplStock, numericSectorStock] 0).map
        SectorSummary.sector)
      = ["5", "Technology"] ∧
    (["5", "Technology"] : List String) ≠ ["Technology", "5"] := by
  refine ⟨?_, ?_, ?_, by decide⟩
  · simp [aaplStock, numericSectorStock]
  · decide
  · decide

/-- C9 amended: `calculateSectorSummaries` produces exactly one row per
distinct sector label — quantity plays no role in grouping, so sectors all
of whose holdings have quantity 0 still appear; the row labels are
pairwise distinct and their set is exactly the set of sector labels of the
input — in a deterministic order: the ECMAScript ordinary own property
order, i.e. array-index-like sector labels (canonical decimal strings
below 2³² − 1) first in ascending numeric order, then the remaining labels
in first-occurrence order of the input sequence. -/
theorem sectorSummaries_one_row_per_label (stocks : List Stock) (t : ℚ) :
    ((P.calculateSectorSummaries stocks t).map SectorSummary.sector)
      = jsKeyOrder (firstOccurrenceKeys (stocks.map Stock.sector)) ∧
    ((P.calculateSectorSummaries stocks t).map SectorSummary.sector).Nodup ∧
    ((P.calculateSectorSummaries stocks t).map SectorSummary.sector).toFinset
      = (stocks.map Stock.sector).toFinset := by
  have hmap : (P.calculateSectorSummaries stocks t).map SectorSummary.sector
      = (jsEntriesOrder (P.groupStocksBySector stocks)).map Prod.fst := by
    simp only [P.calculateSectorSummaries, List.map_map]
    rfl
  have hk : (P.groupStocksBySector stocks).map Prod.fst
      = firstOccurrenceKeys (stocks.map Stock.sector) := by
    unfold P.groupStocksBySector firstOccurrenceKeys
    simpa using map_fst_foldl_addToGroups stocks []
  have horder : (P.calculateSectorSummaries stocks t).map SectorSummary.sector
      = jsKeyOrder (firstOccurrenceKeys (stocks.map Stock.sector)) := by
    rw [hmap, map_fst_jsEntriesOrder, hk]
  have hnd : (firstOccurrenceKeys (stocks.map Stock.sector)).Nodup := by
    unfold firstOccurrenceKeys
    exact nodup_foldl_insKey _ _ (by simp)
  have hperm := jsKeyOrder_perm (firstOccurrenceKeys (stocks.map Stock.sector))
  refine ⟨horder, ?_, ?_⟩
  · rw [horder]
    exact hperm.nodup_iff.mpr hnd
  · rw [horder]
    have hts : (firstOccurrenceKeys (stocks.map Stock.sector)).toFinset
        = (stocks.map Stock.sector).toFinset := by
      unfold firstOccurrenceKeys
      rw [toFinset_foldl_insKey]
      simp
    ext x
    simp only [List.mem_toFinset]
    rw [hperm.mem_iff, ← List.mem_toFinset, hts, List.mem_toFinset]

/-- Looking up the key just written by `setKey` yields the written value. -/
theorem lookupKey_setKey {α : Type} (m : List (String × α)) (k : String) (v : α) :
    lookupKey (setKey m k v) k = some v := by
  induction m with
  | nil => simp [setKey, lookupKey]
  | cons p m ih =>
    by_cases h : p.1 = k
    · simp [setKey, lookupKey, h]
    · simp [setKey, lookupKey, h, ih]

/-- C4 counterexample: with a pending uncommitted edit of quantity 0 on the
AAPL holding (stored quantity 10, purchase price 150), the live views use
the stored quantity — `getCurrentQuantity` returns 10 and the investment
column shows 1500, whereas the claim requires effective quantity 0 and
hence investment `150 × 0 = 0`. -/
theorem pending_zero_edit_ignored :
    T.getCurrentQuantity [("1", 0)] aaplStock = 10 ∧
    T.investmentAccessor [("1", 0)] aaplStock = 1500 ∧
    aaplStock.purchasePrice * 0 = 0 ∧
    (1500 : ℚ) ≠ 0 := by
  have hq : T.getCurrentQuantity [("1", 0)] aaplStock = 10 := by
    simp [T.getCurrentQuantity, lookupKey, aaplStock]
  refine ⟨hq, ?_, by simp, by norm_num⟩
  rw [T.investmentAccessor, hq]
  show aaplStock.purchasePrice * 10 = 1500
  norm_num [aaplStock]

/-- C4 amended: a pending uncommitted quantity edit `q` drives the live
derived views (investment, present value, gain/loss) only when `q ≠ 0`;
a pending edit of exactly 0 is falsy under the `||`-fallback of
`getCurrentQuantity` and the stored quantity is used instead. -/
theorem pending_edit_drives_views (eq : List (String × ℚ)) (s : Stock) (q : ℚ)
    (h : lookupKey eq s.id = some q) :
    (q ≠ 0 →
      T.getCurrentQuantity eq s = q ∧
      T.investmentAccessor eq s = s.purchasePrice * q ∧
      T.presentValueAccessor eq s = s.currentPrice * q ∧
      T.gainLossAccessor eq s = (s.currentPrice - s.purchasePrice) * q) ∧
    (q = 0 → T.getCurrentQuantity eq s = s.quantity) := by
  constructor
  · intro hq
    have hc : T.getCurrentQuantity eq s = q := by
      simp [T.getCurrentQuantity, h, hq]
    exact ⟨hc, by simp [T.investmentAccessor, V.calculateInvestment, hc],
      by simp [T.presentValueAccessor, V.calculatePresentValue, hc],
      by simp [T.gainLossAccessor, V.calculateGainLoss, hc]⟩
  · intro hq
    simp [T.getCurrentQuantity, h, hq]

/-- Witness for the amended C4: a pending edit of 20 on the AAPL holding is
reflected live in all three derived views. -/
theorem pending_edit_drives_views_witness :
    T.getCurrentQuantity [("1", 20)] aaplStock = 20 ∧
    T.investmentAccessor [("1", 20)] aaplStock = aaplStock.purchasePrice * 20 ∧
    T.presentValueAccessor [("1", 20)] aaplStock = aaplStock.currentPrice * 20 ∧
    T.gainLossAccessor [("1", 20)] aaplStock
      = (aaplStock.currentPrice - aaplStock.purchasePrice) * 20 :=
  (pending_edit_drives_views [("1", 20)] aaplStock 20
    (by simp [aaplStock, lookupKey]) ).1 (by norm_num)

/-- C5: `saveQuantityChange` of `src/unnamed/part_004` commits nothing —
at the claimed scenario (commit of quantity 20 on the AAPL holding with
purchase price 150 and stored quantity 10) it returns the holdings and the
pending-edit overlay unchanged, only clearing the row's editing flag, so
the stored quantity stays 10 and the investment stays 1500, not 3000. -/
theorem saveQuantityChange_commits_nothing :
    T.saveQuantityChange [aaplStock] [("1", 20)] [("1", true)] aaplStock
      = ([aaplStock], [("1", 20)], [("1", false)]) ∧
    aaplStock.quantity = 10 ∧
    P.calculateInvestment aaplStock = 1500 ∧
    (1500 : ℚ) ≠ 3000 := by
    refine ⟨?_, rfl, ?_, by norm_num⟩
    · simp [T.saveQuantityChange, setKey, aaplStock]
    · norm_num [P.calculateInvestment, aaplStock]

/-- C6 counterexample: entering the invalid quantity −5 in the quantity
input does not fail — the `onChange` handler clamps it to 0 via
`Math.max(0, parseInt(v) || 0)` and writes the clamped value into the
pending-edit overlay, so the overlay changes (no error type named
`InvalidQuantityError` exists anywhere in the repository). -/
theorem negative_quantity_clamped_not_rejected :
    T.quantityInputChange [] "1" (some (-5)) = [("1", (0 : ℚ))] ∧
    [("1", (0 : ℚ))] ≠ ([] : List (String × ℚ)) := by
  constructor
  · show setKey [] "1" _ = _
    norm_num [setKey, T.sanitizeQuantityInput]
  · simp

/-- C6 amended: the quantity input never raises an error: every entered
value — negative, non-integer (truncated by `parseInt`), or non-numeric
(`parseInt` gives `NaN`) — is sanitised to the non-negative integer
`max 0 (parseInt(v) || 0)`, which is written into the pending-edit overlay;
the holding collection itself is untouched (the handler only writes the
overlay) and nothing is partially applied, but no `InvalidQuantityError`
exists and the overlay does change. -/
theorem quantityInput_sanitizes (eq : List (String × ℚ)) (id : String)
    (v : Option ℤ) :
    lookupKey (T.quantityInputChange eq id v) id
      = some ((T.sanitizeQuantityInput v : ℤ) : ℚ) ∧
    0 ≤ T.sanitizeQuantityInput v ∧
    (∃ n : ℕ, T.sanitizeQuantityInput v = (n : ℤ)) := by
  refine ⟨lookupKey_setKey _ _ _, le_max_left 0 _, ?_⟩
  exact ⟨(T.sanitizeQuantityInput v).toNat,
    (Int.toNat_of_nonneg (le_max_left 0 _)).symm⟩

/-- C7: per-ticker failure is isolated in the route's `GET` — the response
is always `ok` (never a batch failure), has one entry per portfolio row,
the failed ticker's rows degrade to the fallback values (current price =
purchase price, market-data fields absent), and every row of a different
ticker is unaffected by what the failed ticker's fetch would have
returned. -/
theorem per_ticker_failure_isolated (now : String)
    (o1 o2 : String → Option (Route.QuoteData × Route.FinancialsData))
    (pdata : List Route.PortfolioEntry) (t : String)
    (hfail : o1 t = none)
    (hagree : ∀ s, s ≠ t → o1 s = o2 s) :
    Route.routeGET now o1 pdata
      = Except.ok (pdata.map (fun e => Route.processStock now e (o1 e.symbol))) ∧
    (pdata.map (fun e => Route.processStock now e (o1 e.symbol))).length
      = pdata.length ∧
    (∀ e ∈ pdata, e.symbol = t →
      Route.processStock now e (o1 e.symbol) = Route.processFallback e) ∧
    (∀ e : Route.PortfolioEntry,
      (Route.processFallback e).currentPrice = e.purchasePrice ∧
      (Route.processFallback e).peRatio = none ∧
      (Route.processFallback e).latestEarnings = none ∧
      (Route.processFallback e).dayHigh = none ∧
      (Route.processFallback e).dayLow = none ∧
      (Route.processFallback e).volume = none ∧
      (Route.processFallback e).marketCap = none ∧
      (Route.processFallback e).dayChange = none ∧
      (Route.processFallback e).dayChangePercent = none ∧
      (Route.processFallback e).lastUpdated = none) ∧
    (∀ e ∈ pdata, e.symbol ≠ t →
      Route.processStock now e (o1 e.symbol)
        = Route.processStock now e (o2 e.symbol)) := by
  refine ⟨rfl, by simp, ?_, ?_, ?_⟩
  · intro e _ he
    rw [he, hfail]
    rfl
  · intro e
    exact ⟨rfl, rfl, rfl, rfl, rfl, rfl, rfl, rfl, rfl, rfl⟩
  · intro e _ he
    rw [hagree e.symbol he]

/-- Witness for C7 at a concrete batch: the AAPL entry with every fetch
failing on one side and succeeding with an all-zero quote on the other,
the failed ticker being AAPL itself. -/
theorem per_ticker_failure_isolated_witness :
    Route.routeGET "now" (fun _ => none) [appleEntry]
      = Except.ok ([appleEntry].map
          (fun e => Route.processStock "now" e ((fun _ => none) e.symbol))) ∧
    ([appleEntry].map
        (fun e => Route.processStock "now" e ((fun _ => none) e.symbol))).length
      = [appleEntry].length ∧
    (∀ e ∈ [appleEntry], e.symbol = "AAPL" →
      Route.processStock "now" e ((fun _ => none) e.symbol)
        = Route.processFallback e) ∧
    (∀ e : Route.PortfolioEntry,
      (Route.processFallback e).currentPrice = e.purchasePrice ∧
      (Route.processFallback e).peRatio = none ∧
      (Route.processFallback e).latestEarnings = none ∧
      (Route.processFallback e).dayHigh = none ∧
      (Route.processFallback e).dayLow = none ∧
      (Route.processFallback e).volume = none ∧
      (Route.processFallback e).marketCap = none ∧
      (Route.processFallback e).dayChange = none ∧
      (Route.processFallback e).dayChangePercent = none ∧
      (Route.processFallback e).lastUpdated = none) ∧
    (∀ e ∈ [appleEntry], e.symbol ≠ "AAPL" →
      Route.processStock "now" e ((fun _ => none) e.symbol)
        = Route.processStock "now" e
            ((fun s => if s = "AAPL" then some (quoteAllZero, financialsNone)
              else none) e.symbol)) :=
  per_ticker_failure_isolated "now" (fun _ => none)
    (fun s => if s = "AAPL" then some (quoteAllZero, financialsNone) else none)
    [appleEntry] "AAPL" rfl (fun s hs => by simp [hs])

/-- C10: when the quote fetch succeeds but reports `regularMarketPrice` as
0 or omits it, the result's `currentPrice` falls back to the purchase
price — the same value a wholly failed fetch yields — and a reported 0 for
volume, market cap, day change, or day-change percent is coerced to the
absent value by the same `|| null` falsy coercion.  A zero price is
indistinguishable from a missing price: the two produce identical result
records. -/
theorem zero_quote_values_coerced (now : String) (e : Route.PortfolioEntry)
    (q : Route.QuoteData) (f : Route.FinancialsData)
    (hp : q.regularMarketPrice = none ∨ q.regularMarketPrice = some 0) :
    (Route.processSuccess now e q f).currentPrice = e.purchasePrice ∧
    (Route.processSuccess now e q f).currentPrice
      = (Route.processFallback e).currentPrice ∧
    Route.processSuccess now e { q with regularMarketPrice := some 0 } f
      = Route.processSuccess now e { q with regularMarketPrice := none } f ∧
    (q.regularMarketVolume = some 0 →
      (Route.processSuccess now e q f).volume = none) ∧
    (q.marketCap = some 0 →
      (Route.processSuccess now e q f).marketCap = none) ∧
    (q.regularMarketChange = some 0 →
      (Route.processSuccess now e q f).dayChange = none) ∧
    (q.regularMarketChangePercent = some 0 →
      (Route.processSuccess now e q f).dayChangePercent = none) := by
  have hcp : (Route.processSuccess now e q f).currentPrice = e.purchasePrice := by
    show Route.orFalsy q.regularMarketPrice e.purchasePrice = e.purchasePrice
    rcases hp with h | h <;> simp [Route.orFalsy, h]
  refine ⟨hcp, hcp.trans rfl, ?_, ?_, ?_, ?_, ?_⟩
  · simp [Route.processSuccess, Route.orFalsy]
  · intro h
    show Route.orNull q.regularMarketVolume = none
    simp [Route.orNull, h]
  · intro h
    show Route.orNull q.marketCap = none
    simp [Route.orNull, h]
  · intro h
    show Route.orNull q.regularMarketChange = none
    simp [Route.orNull, h]
  · intro h
    show Route.orNull q.regularMarketChangePercent = none
    simp [Route.orNull, h]

/-- Witness for C10 at the concrete AAPL entry and the all-zero quote. -/
theorem zero_quote_values_coerced_witness :
    (Route.processSuccess "now" appleEntry quoteAllZero financialsNone).currentPrice
      = appleEntry.purchasePrice ∧
    (Route.processSuccess "now" appleEntry quoteAllZero financialsNone).volume = none ∧
    (Route.processSuccess "now" appleEntry quoteAllZero financialsNone).marketCap = none ∧
    (Route.processSuccess "now" appleEntry quoteAllZero financialsNone).dayChange = none ∧
    (Route.processSuccess "now" appleEntry quoteAllZero financialsNone).dayChangePercent
      = none := by
  have h := zero_quote_values_coerced "now" appleEntry quoteAllZero financialsNone
    (Or.inr rfl)
  exact ⟨h.1, h.2.2.2.1 rfl, h.2.2.2.2.1 rfl, h.2.2.2.2.2.1 rfl, h.2.2.2.2.2.2 rfl⟩
